import Mathlib

/-!
A shallow embedding of the inventory/sales Flask application (`app.py`) and
proofs about its operations.

Modelling conventions:
* SQLite TEXT values are modelled as `List Char` (`Str`), so that the Python
  string operations (`.strip()`, `LOWER`, substring search) are structurally
  recursive and computable in the kernel.
* SQLite REAL values (Python floats) are modelled as `ℚ`.
* Each table is a list of rows in insertion order; `AUTOINCREMENT` ids are
  supplied explicitly by the caller (`newId`) when a row is inserted.
* A request handler is a function from the database (plus the request data) to
  the new database.  Handlers that can abort return `Option String × DB`:
  `(some msg, db)` models "flash the error `msg` and redirect, with no commit"
  (the aborting paths of `app.py` perform no write, or roll back), and
  `(none, db')` models a committed, successful request.
* `LOWER(x) LIKE LOWER('%q%')` is modelled as case-insensitive substring
  containment, i.e. for queries that contain no `LIKE` wildcard characters.
* Numeric form fields are modelled by `RawNum`: the three relevant outcomes of
  `request.form.get(...)` followed by `float(...)` are an empty/absent value,
  a non-empty value that makes `float` raise, and a successfully parsed number.
-/

namespace Inv1

abbrev Str := List Char

/-- Python `s.strip()`: drop leading and trailing whitespace. -/
def pstrip (s : Str) : Str :=
  ((s.dropWhile Char.isWhitespace).reverse.dropWhile Char.isWhitespace).reverse

/-- SQL `LOWER`. -/
def lowerStr (s : Str) : Str := s.map Char.toLower

/-- Is `pat` a contiguous substring of the second argument?
Models `field LIKE '%pat%'` for a wildcard-free `pat`. -/
def containsSub (pat : Str) : Str → Bool
  | [] => pat.isEmpty
  | c :: t => pat.isPrefixOf (c :: t) || containsSub pat t

/-- `LOWER(field) LIKE LOWER('%q%')` (wildcard-free `q`). -/
def likeMatch (field q : Str) : Bool := containsSub (lowerStr q) (lowerStr field)

/-- Lexicographic comparison of strings (SQLite default `ORDER BY` on TEXT). -/
def strLe : Str → Str → Bool
  | [], _ => true
  | _ :: _, [] => false
  | a :: s, b :: t => if a < b then true else if b < a then false else strLe s t

/-- Insert `a` into `l` before the first element it is `le`-below
(insertion step of a stable sort, modelling SQL `ORDER BY`). -/
def orderedInsertBy (le : α → α → Bool) (a : α) : List α → List α
  | [] => [a]
  | b :: l => if le a b then a :: b :: l else b :: orderedInsertBy le a l

/-- Stable insertion sort, modelling SQL `ORDER BY`. -/
def sortListBy (le : α → α → Bool) : List α → List α
  | [] => []
  | a :: l => orderedInsertBy le a (sortListBy le l)

/-- A row of the `users` table. -/
structure UserRow where
  username : Str
  password_hash : Str
  shop_name : Str
deriving DecidableEq

/-- A row of the `inventory` table. -/
structure InvRow where
  id : ℕ
  shop_name : Str
  oil_type : Str
  unit : Str
  quantity : ℚ
  unit_price : ℚ
deriving DecidableEq

/-- A row of the `sales` table or of the `purchases` table
(the two tables have identical schemas in `init_db`). -/
structure TxnRow where
  shop_name : Str
  oil_type : Str
  unit : Str
  quantity : ℚ
  price_per_unit : ℚ
  total : ℚ
  date : Str
deriving DecidableEq

/-- A row of the `purchase_orders` table. -/
structure PORow where
  shop_name : Str
  oil_type : Str
  unit : Str
  quantity : ℚ
  status : Str
  date : Str
deriving DecidableEq

/-- The whole SQLite database. -/
structure DB where
  users : List UserRow
  inventory : List InvRow
  purchases : List TxnRow
  sales : List TxnRow
  purchase_orders : List PORow
deriving DecidableEq

/-- A submitted numeric form field, as seen by
`request.form.get(...)` + `float(...)`. -/
inductive RawNum where
  /-- absent, or empty / whitespace-only (falsy once stripped) -/
  | empty : RawNum
  /-- non-empty but `float(...)` raises `ValueError` -/
  | malformed : RawNum
  /-- parses as the number `q` (floats modelled as rationals) -/
  | num : ℚ → RawNum
deriving DecidableEq

/-- `try: v = float(raw or 0) except: v = 0.0` — the parse used by the
purchase, inventory-add and purchase-order handlers. -/
def floatOrZero : RawNum → ℚ
  | .empty => 0
  | .malformed => 0
  | .num q => q

/-- `register` (POST): trims the username and shop name, defaults the shop
name to `"DefaultShop"`, rejects empty username/password, and rejects a
username already present (UNIQUE constraint → `IntegrityError`).
`hash` models `generate_password_hash`. -/
def register (db : DB) (hash : Str → Str) (username password shop_name : Str) :
    Option String × DB :=
  let uname := pstrip username
  let shop := if pstrip shop_name = [] then "DefaultShop".toList else pstrip shop_name
  if uname = [] ∨ password = [] then
    (some "Fill all fields", db)
  else if db.users.any (fun u => u.username == uname) then
    (some "Username already exists", db)
  else
    (none, { db with users := db.users ++ [⟨uname, hash password, shop⟩] })

/-- `SELECT * FROM inventory WHERE shop_name=? AND oil_type=? AND unit=?`
(first matching row). -/
def keyFind (inv : List InvRow) (shop oil u : Str) : Option InvRow :=
  inv.find? (fun r => r.shop_name == shop && r.oil_type == oil && r.unit == u)

/-- The upsert shared (by textual duplication) by `add_inventory` and
`purchase`: if a row with the same (shop, oil_type, unit) key exists, set its
quantity to the old quantity plus `qty` and overwrite its price; otherwise
insert a fresh row. -/
def upsertInventory (inv : List InvRow) (shop oil u : Str) (qty price : ℚ)
    (newId : ℕ) : List InvRow :=
  match keyFind inv shop oil u with
  | some ex =>
      inv.map (fun r =>
        if r.id = ex.id then { r with quantity := ex.quantity + qty, unit_price := price }
        else r)
  | none => inv ++ [⟨newId, shop, oil, u, qty, price⟩]

/-- `add_inventory` (POST `/inventory/add`). -/
def add_inventory (db : DB) (shop oil_type unit : Str) (quantity price : RawNum)
    (newId : ℕ) : DB :=
  { db with inventory :=
      (upsertInventory db.inventory shop (pstrip oil_type) unit
        (floatOrZero quantity) (floatOrZero price) newId) }

/-- `purchase` (POST `/purchase`): append a purchase-log row with
`total = qty * price`, then run the same inventory upsert. -/
def purchase (db : DB) (shop oil_type unit : Str) (quantity price : RawNum)
    (date : Str) (newId : ℕ) : DB :=
  let oil := pstrip oil_type
  let qty := floatOrZero quantity
  let p := floatOrZero price
  let total := qty * p
  let db1 := { db with purchases := db.purchases ++ [(⟨shop, oil, unit, qty, p, total, date⟩ : TxnRow)] }
  { db1 with inventory := upsertInventory db1.inventory shop oil unit qty p newId }

/-- `purchase_orders` (POST `/po`): `unit or "Liters"`, coerced quantity,
status `"Pending"`.  (`oil_type` is taken verbatim, not stripped.) -/
def purchase_orders_post (db : DB) (shop oil_type unit : Str) (quantity : RawNum)
    (date : Str) : DB :=
  let u := if unit = [] then "Liters".toList else unit
  { db with purchase_orders :=
      (db.purchase_orders ++ [⟨shop, oil_type, u, floatOrZero quantity, "Pending".toList, date⟩]) }

/-- One entry of the `sells` list built by the first loop of `sell`. -/
structure SellLine where
  inventory_id : ℕ
  oil_type : Str
  unit : Str
  qty : ℚ
  price_per_unit : ℚ
  total : ℚ
deriving DecidableEq

/-- The per-line parse in `sell`: `raw.strip()`; empty → skip (`continue`),
parse failure → `qty = 0`, otherwise the parsed number.  (`none` = skipped
before parsing; a returned value still gets the `qty <= 0` skip test.) -/
def sellLineQty : RawNum → Option ℚ
  | .empty => none
  | .malformed => some 0
  | .num q => some q

/-- `request.form.get("qty_<id>", "")` over the submitted form, keyed by
inventory id; absent fields read as empty. -/
def formGet (form : List (ℕ × RawNum)) (i : ℕ) : RawNum :=
  (form.lookup i).getD .empty

/-- The sales-table row inserted for one sell line. -/
def mkSaleRow (shop date : Str) (s : SellLine) : TxnRow :=
  ⟨shop, s.oil_type, s.unit, s.qty, s.price_per_unit, s.total, date⟩

/-- The inventory rows listed on the sell form:
`SELECT * FROM inventory WHERE shop_name = ? ORDER BY oil_type`. -/
def sellItems (db : DB) (shop : Str) : List InvRow :=
  sortListBy (fun a b => strLe a.oil_type b.oil_type)
    (db.inventory.filter (fun r => r.shop_name == shop))

/-- The first loop of `sell`: walk the listed items, skip lines with no
usable quantity, re-read each remaining item's row by id, fail fast on a
missing row or on insufficient stock, and otherwise snapshot the price
(`row["unit_price"] or 0.0` is the identity on a NOT NULL REAL column). -/
def collectSells (db : DB) (form : List (ℕ × RawNum)) :
    List InvRow → Except String (List SellLine)
  | [] => .ok []
  | it :: rest =>
    match sellLineQty (formGet form it.id) with
    | none => collectSells db form rest
    | some qty =>
      if qty ≤ 0 then collectSells db form rest
      else
        match db.inventory.find? (fun r => r.id == it.id) with
        | none => .error "Item not found"
        | some row =>
          if row.quantity < qty then .error "Not enough stock"
          else
            (collectSells db form rest).map
              (⟨row.id, row.oil_type, row.unit, qty, row.unit_price, qty * row.unit_price⟩ :: ·)

/-- One iteration of the second loop of `sell`: re-read the row by id
(a missing row would raise, rolling the transaction back — modelled as
`none`), decrement or delete it, and insert one sales row. -/
def applyOne (shop date : Str) (db : DB) (s : SellLine) : Option DB :=
  match db.inventory.find? (fun r => r.id == s.inventory_id) with
  | none => none
  | some ex =>
    let new_qty := ex.quantity - s.qty
    let inv :=
      if new_qty ≤ 0 then
        db.inventory.filter (fun r => r.id != s.inventory_id)
      else
        db.inventory.map (fun r =>
          if r.id = s.inventory_id then { r with quantity := new_qty } else r)
    some { db with inventory := inv, sales := db.sales ++ [mkSaleRow shop date s] }

/-- The second loop of `sell`, over the collected lines. -/
def applySells (shop date : Str) : DB → List SellLine → Option DB
  | db, [] => some db
  | db, s :: rest => (applyOne shop date db s).bind (fun db1 => applySells shop date db1 rest)

/-- `sell` (POST `/sell`).  Collection-phase failures and an empty selection
abort before any write; an apply-phase failure rolls back (`db.rollback()`),
so every aborting outcome returns the original database. -/
def sell (db : DB) (shop : Str) (form : List (ℕ × RawNum)) (date : Str) :
    Option String × DB :=
  match collectSells db form (sellItems db shop) with
  | .error msg => (some msg, db)
  | .ok sells =>
    if sells.isEmpty then (some "No items selected for sale", db)
    else
      match applySells shop date db sells with
      | none => (some "Error recording sale", db)
      | some db2 => (none, db2)

/-- `search` (GET `/search`): strip the query; an empty query redirects away
(`none`).  Otherwise filter each table to the caller's shop and a
case-insensitive substring match, ordering inventory by `oil_type` and
sales/purchases by date descending with `LIMIT 500`. -/
def search (db : DB) (shop q0 : Str) :
    Option (List InvRow × List TxnRow × List TxnRow) :=
  let q := pstrip q0
  if q = [] then none
  else
    let inv_rows :=
      sortListBy (fun a b => strLe a.oil_type b.oil_type)
        (db.inventory.filter (fun r =>
          r.shop_name == shop && (likeMatch r.oil_type q || likeMatch r.unit q)))
    let sales_rows :=
      (sortListBy (fun a b => strLe b.date a.date)
        (db.sales.filter (fun r => r.shop_name == shop && likeMatch r.oil_type q))).take 500
    let purchases_rows :=
      (sortListBy (fun a b => strLe b.date a.date)
        (db.purchases.filter (fun r => r.shop_name == shop && likeMatch r.oil_type q))).take 500
    some (inv_rows, sales_rows, purchases_rows)

end Inv1

namespace Inv1

/-! ### Helper lemmas about the sorting model -/

theorem orderedInsertBy_perm (le : α → α → Bool) (a : α) (l : List α) :
    (orderedInsertBy le a l).Perm (a :: l) := by
  induction l with
  | nil => simp [orderedInsertBy]
  | cons b t ih =>
    by_cases h : le a b
    · simp [orderedInsertBy, h]
    · simp only [orderedInsertBy, h, if_neg, Bool.false_eq_true, not_false_eq_true, ite_false]
      exact (ih.cons b).trans (List.Perm.swap a b t)

theorem sortListBy_perm (le : α → α → Bool) (l : List α) :
    (sortListBy le l).Perm l := by
  induction l with
  | nil => simp [sortListBy]
  | cons a t ih =>
    exact (orderedInsertBy_perm le a (sortListBy le t)).trans (ih.cons a)

theorem mem_sortListBy {le : α → α → Bool} {l : List α} {x : α} :
    x ∈ sortListBy le l ↔ x ∈ l :=
  (sortListBy_perm le l).mem_iff

theorem length_sortListBy (le : α → α → Bool) (l : List α) :
    (sortListBy le l).length = l.length :=
  (sortListBy_perm le l).length_eq

/-! ### C3: inventory upsert -/

/-- C3: For every inventory upsert with shop, item, unit, delta quantity and
new price: if a row with the same (shop, item, unit) key exists, its quantity
becomes old quantity + delta and its unit_price is replaced by the new price
(not averaged); if no such row exists, a new row with the given quantity and
price is inserted.  There is no guard preventing a negative delta from
producing a negative quantity on this path. -/
theorem C3_inventory_upsert (db : DB) (shop oil_type unit : Str)
    (qR pR : RawNum) (newId : ℕ) :
    (∀ ex, keyFind db.inventory shop (pstrip oil_type) unit = some ex →
      (add_inventory db shop oil_type unit qR pR newId).inventory =
        db.inventory.map (fun r =>
          if r.id = ex.id then
            { r with quantity := ex.quantity + floatOrZero qR,
                     unit_price := floatOrZero pR }
          else r)) ∧
    (keyFind db.inventory shop (pstrip oil_type) unit = none →
      (add_inventory db shop oil_type unit qR pR newId).inventory =
        db.inventory ++ [⟨newId, shop, pstrip oil_type, unit, floatOrZero qR, floatOrZero pR⟩]) ∧
    (∃ (db0 : DB) (s o u : Str) (d p : RawNum) (i : ℕ) (r : InvRow),
      r ∈ (add_inventory db0 s o u d p i).inventory ∧ r.quantity < 0) := by
  refine ⟨?_, ?_, ?_⟩
  · intro ex h
    simp only [add_inventory, upsertInventory, h]
  · intro h
    simp only [add_inventory, upsertInventory, h]
  · refine ⟨⟨[], [⟨0, ['s'], ['o'], ['u'], 5, 1⟩], [], [], []⟩,
      ['s'], ['o'], ['u'], .num (-10), .num 1, 9, ⟨0, ['s'], ['o'], ['u'], -5, 1⟩, ?_, by norm_num⟩
    have hk : keyFind [⟨0, ['s'], ['o'], ['u'], (5 : ℚ), 1⟩] ['s'] (pstrip ['o']) ['u'] =
        some ⟨0, ['s'], ['o'], ['u'], 5, 1⟩ := rfl
    simp only [add_inventory, upsertInventory, hk]
    norm_num [floatOrZero]

/-- Witness for C3 at a concrete database: adding delta 2 at price 7 to a
(5, price 1) row yields the updated row. -/
theorem C3_witness :
    (add_inventory ⟨[], [⟨0, ['s'], ['o'], ['u'], 5, 1⟩], [], [], []⟩
        ['s'] ['o'] ['u'] (.num 2) (.num 7) 9).inventory =
      [⟨0, ['s'], ['o'], ['u'], 7, 7⟩] := by
  rw [(C3_inventory_upsert ⟨[], [⟨0, ['s'], ['o'], ['u'], 5, 1⟩], [], [], []⟩
        ['s'] ['o'] ['u'] (.num 2) (.num 7) 9).1 ⟨0, ['s'], ['o'], ['u'], 5, 1⟩ rfl]
  norm_num [floatOrZero]

/-! ### C4: purchase recording -/

/-- C4: For every recorded purchase with quantity q and price p, the purchase
operation appends exactly one purchase record with total = q × p and then
performs the inventory upsert with the same delta q and price p; in
particular, purchasing q=10 at p=5 for an item with no existing inventory row
creates an inventory row with quantity 10 and unit_price 5 and a purchase log
row with total 50. -/
theorem C4_purchase (db : DB) (shop oil_type unit : Str) (qR pR : RawNum)
    (date : Str) (newId : ℕ) :
    ((purchase db shop oil_type unit qR pR date newId).purchases =
      db.purchases ++ [⟨shop, pstrip oil_type, unit, floatOrZero qR, floatOrZero pR,
        floatOrZero qR * floatOrZero pR, date⟩]) ∧
    ((purchase db shop oil_type unit qR pR date newId).inventory =
      upsertInventory db.inventory shop (pstrip oil_type) unit
        (floatOrZero qR) (floatOrZero pR) newId) ∧
    ((purchase db shop oil_type unit qR pR date newId).sales = db.sales) ∧
    ((purchase db shop oil_type unit qR pR date newId).users = db.users) ∧
    ((purchase db shop oil_type unit qR pR date newId).purchase_orders = db.purchase_orders) ∧
    (keyFind db.inventory shop (pstrip oil_type) unit = none →
      (purchase db shop oil_type unit (.num 10) (.num 5) date newId).inventory =
        db.inventory ++ [⟨newId, shop, pstrip oil_type, unit, 10, 5⟩] ∧
      (purchase db shop oil_type unit (.num 10) (.num 5) date newId).purchases =
        db.purchases ++ [⟨shop, pstrip oil_type, unit, 10, 5, 50, date⟩]) := by
  refine ⟨rfl, rfl, rfl, rfl, rfl, fun h => ⟨?_, ?_⟩⟩
  · simp only [purchase, upsertInventory, h]
    norm_num [floatOrZero]
  · simp only [purchase, floatOrZero]
    norm_num

/-- Witness for C4 at a concrete database: purchasing 10 at price 5 with no
existing row creates the (10, 5) inventory row and a total-50 log row. -/
theorem C4_witness :
    (purchase (⟨[], [], [], [], []⟩ : DB) ['s'] ['o'] ['u'] (.num 10) (.num 5) ['d'] 3).inventory =
      [⟨3, ['s'], pstrip ['o'], ['u'], 10, 5⟩] ∧
    (purchase (⟨[], [], [], [], []⟩ : DB) ['s'] ['o'] ['u'] (.num 10) (.num 5) ['d'] 3).purchases =
      [⟨['s'], pstrip ['o'], ['u'], 10, 5, 50, ['d']⟩] :=
  (C4_purchase ⟨[], [], [], [], []⟩ ['s'] ['o'] ['u'] (.num 10) (.num 5) ['d'] 3).2.2.2.2.2 rfl

/-! ### C7: silent numeric coercion -/

/-- C7: For every non-numeric quantity or price field submitted to the
purchase, inventory-add, or purchase-order forms, the value is silently
coerced to zero and the request proceeds (a record is still written), rather
than being rejected with an error. -/
theorem C7_coercion (db : DB) (shop oil_type unit : Str) (qR pR : RawNum)
    (date : Str) (newId : ℕ) :
    (purchase db shop oil_type unit .malformed pR date newId =
      purchase db shop oil_type unit (.num 0) pR date newId) ∧
    (purchase db shop oil_type unit qR .malformed date newId =
      purchase db shop oil_type unit qR (.num 0) date newId) ∧
    (add_inventory db shop oil_type unit .malformed pR newId =
      add_inventory db shop oil_type unit (.num 0) pR newId) ∧
    (add_inventory db shop oil_type unit qR .malformed newId =
      add_inventory db shop oil_type unit qR (.num 0) newId) ∧
    (purchase_orders_post db shop oil_type unit .malformed date =
      purchase_orders_post db shop oil_type unit (.num 0) date) ∧
    ((purchase db shop oil_type unit .malformed pR date newId).purchases.length =
      db.purchases.length + 1) ∧
    ((purchase_orders_post db shop oil_type unit .malformed date).purchase_orders =
      db.purchase_orders ++ [⟨shop, oil_type, (if unit = [] then "Liters".toList else unit),
        0, "Pending".toList, date⟩]) := by
  refine ⟨rfl, rfl, rfl, rfl, rfl, ?_, rfl⟩
  simp [purchase]

end Inv1

namespace Inv1

/-! ### C8: duplicate username at registration -/

/-- C8: For every registration attempt whose (trimmed) username already
exists in the users table, the attempt fails with a user-visible message and
causes no state change: the whole database, in particular the existing user's
record, is returned unchanged and no new user row is created. -/
theorem C8_duplicate_username (db : DB) (hash : Str → Str)
    (username password shop_name : Str)
    (hdup : ∃ u ∈ db.users, u.username = pstrip username) :
    ∃ msg, register db hash username password shop_name = (some msg, db) := by
  obtain ⟨u, hu, hname⟩ := hdup
  unfold register
  by_cases h0 : pstrip username = [] ∨ password = []
  · exact ⟨"Fill all fields", by simp [h0]⟩
  · refine ⟨"Username already exists", ?_⟩
    have hany : db.users.any (fun v => v.username == pstrip username) = true :=
      List.any_eq_true.mpr ⟨u, hu, by simp [hname]⟩
    simp [h0, hany]

/-- Witness for C8: re-registering an existing username fails and leaves the
database unchanged. -/
theorem C8_witness :
    ∃ msg, register ⟨[⟨"bob".toList, "h".toList, "S".toList⟩], [], [], [], []⟩
        (fun s => s) "bob".toList "pw".toList "S".toList =
      (some msg, ⟨[⟨"bob".toList, "h".toList, "S".toList⟩], [], [], [], []⟩) :=
  C8_duplicate_username _ _ _ _ _ ⟨⟨"bob".toList, "h".toList, "S".toList⟩, by simp, by decide⟩

/-! ### C10: default shop name at registration -/

/-- C10: For every successful registration whose shop-name field is empty or
consists only of whitespace, the created user's shop_name is the literal
string "DefaultShop"; otherwise it is the submitted shop name with
surrounding whitespace stripped.  The new user is appended to the users
table and carries the trimmed username. -/
theorem C10_default_shop (db : DB) (hash : Str → Str)
    (username password shop_name : Str) (db' : DB)
    (hok : register db hash username password shop_name = (none, db')) :
    ∃ urow : UserRow,
      db' = { db with users := db.users ++ [urow] } ∧
      urow.username = pstrip username ∧
      (pstrip shop_name = [] → urow.shop_name = "DefaultShop".toList) ∧
      (pstrip shop_name ≠ [] → urow.shop_name = pstrip shop_name) := by
  unfold register at hok
  by_cases h0 : pstrip username = [] ∨ password = []
  · simp [h0] at hok
  · simp only [h0, if_false] at hok
    by_cases hany : db.users.any (fun v => v.username == pstrip username)
    · simp [hany] at hok
    · simp only [Bool.not_eq_true] at hany
      simp only [hany, Bool.false_eq_true, if_false, Prod.mk.injEq, true_and] at hok
      refine ⟨⟨pstrip username, hash password,
        if pstrip shop_name = [] then "DefaultShop".toList else pstrip shop_name⟩,
        hok.symm, rfl, ?_, ?_⟩
      · intro h; simp [h]
      · intro h; simp [h]

/-- Witness for C10: registering with a whitespace-only shop name yields a
user whose shop is "DefaultShop". -/
theorem C10_witness :
    ∃ urow : UserRow,
      (register ⟨[], [], [], [], []⟩ (fun s => s) " bob ".toList "pw".toList "   ".toList).2 =
        { (⟨[], [], [], [], []⟩ : DB) with users := [] ++ [urow] } ∧
      urow.username = pstrip " bob ".toList ∧
      (pstrip "   ".toList = [] → urow.shop_name = "DefaultShop".toList) ∧
      (pstrip "   ".toList ≠ [] → urow.shop_name = pstrip "   ".toList) := by
  obtain ⟨urow, h1, h2, h3, h4⟩ :=
    C10_default_shop ⟨[], [], [], [], []⟩ (fun s => s) " bob ".toList "pw".toList "   ".toList
      (register ⟨[], [], [], [], []⟩ (fun s => s) " bob ".toList "pw".toList "   ".toList).2
      (by decide)
  exact ⟨urow, by rw [h1], h2, h3, h4⟩

end Inv1

namespace Inv1

/-! ### Helper lemmas about the sell collection loop -/

/-- Items whose quantity field is empty, unparsable, or parses to a value
≤ 0 contribute nothing to the collection loop. -/
theorem collectSells_ok_nil (db : DB) (form : List (ℕ × RawNum)) :
    ∀ l : List InvRow,
      (∀ it ∈ l, formGet form it.id = .empty ∨ formGet form it.id = .malformed ∨
        ∃ q, formGet form it.id = .num q ∧ q ≤ 0) →
      collectSells db form l = .ok []
  | [], _ => rfl
  | it :: rest, h => by
    have hrest : collectSells db form rest = .ok [] :=
      collectSells_ok_nil db form rest (fun x hx => h x (by simp [hx]))
    rcases h it (by simp) with h1 | h1 | ⟨q, h1, hq⟩
    · simp [collectSells, h1, sellLineQty, hrest]
    · simp [collectSells, h1, sellLineQty, hrest]
    · simp [collectSells, h1, sellLineQty, hq, hrest]

/-- With distinct inventory ids, re-reading a member row by id returns that
row. -/
theorem find_id_nodup {inv : List InvRow} {r : InvRow}
    (hN : (inv.map InvRow.id).Nodup) (hr : r ∈ inv) :
    inv.find? (fun x => x.id == r.id) = some r := by
  have hs : (inv.find? (fun x => x.id == r.id)).isSome :=
    List.find?_isSome.mpr ⟨r, hr, by simp⟩
  obtain ⟨ex, hex⟩ := Option.isSome_iff_exists.mp hs
  have hmem := List.mem_of_find?_eq_some hex
  have hid : ex.id = r.id := by simpa using List.find?_some hex
  rw [hex]
  exact congrArg some (List.inj_on_of_nodup_map hN hmem hr hid)

/-- If some listed row's submitted quantity is positive and exceeds the
quantity the fresh re-read returns, the collection loop fails. -/
theorem collectSells_error_of_over (db : DB) (form : List (ℕ × RawNum))
    {r : InvRow} {q : ℚ}
    (hparse : sellLineQty (formGet form r.id) = some q) (hpos : 0 < q)
    (hfind : db.inventory.find? (fun x => x.id == r.id) = some r)
    (hover : r.quantity < q) :
    ∀ l : List InvRow, r ∈ l → ∃ msg, collectSells db form l = .error msg := by
  intro l
  induction l with
  | nil => intro h; cases h
  | cons it rest ih =>
    intro hmem
    rcases List.mem_cons.mp hmem with heq | htail
    · subst heq
      refine ⟨"Not enough stock", ?_⟩
      simp [collectSells, hparse, not_le.mpr hpos, hfind, hover]
    · obtain ⟨msg, hmsg⟩ := ih htail
      cases hit : sellLineQty (formGet form it.id) with
      | none => exact ⟨msg, by simp [collectSells, hit, hmsg]⟩
      | some qty =>
        by_cases hle : qty ≤ 0
        · exact ⟨msg, by simp [collectSells, hit, hle, hmsg]⟩
        · cases hfind2 : db.inventory.find? (fun x => x.id == it.id) with
          | none => exact ⟨"Item not found", by simp [collectSells, hit, hle, hfind2]⟩
          | some row =>
            by_cases hq2 : row.quantity < qty
            · exact ⟨"Not enough stock", by simp [collectSells, hit, hle, hfind2, hq2]⟩
            · exact ⟨msg, by simp [collectSells, hit, hle, hfind2, hq2, hmsg, Except.map]⟩

/-! ### C9: unusable sale lines are skipped; all-skipped sales fail -/

/-- C9: A sale line whose quantity field is empty, fails to parse, or parses
to a value ≤ 0 is silently skipped (the collection loop treats the listing
with that item exactly like the listing without it); and if every listed item
is skipped this way, the sale fails with the "no items selected" message and
the database is unchanged. -/
theorem C9_skipped_lines (db : DB) (shop : Str) (form : List (ℕ × RawNum))
    (date : Str) :
    (∀ (it : InvRow) (rest : List InvRow),
      (formGet form it.id = .empty ∨ formGet form it.id = .malformed ∨
        ∃ q, formGet form it.id = .num q ∧ q ≤ 0) →
      collectSells db form (it :: rest) = collectSells db form rest) ∧
    ((∀ r ∈ db.inventory, r.shop_name = shop →
        formGet form r.id = .empty ∨ formGet form r.id = .malformed ∨
        ∃ q, formGet form r.id = .num q ∧ q ≤ 0) →
      collectSells db form (sellItems db shop) = .ok [] ∧
      sell db shop form date = (some "No items selected for sale", db)) := by
  constructor
  · intro it rest h
    rcases h with h1 | h1 | ⟨q, h1, hq⟩
    · simp [collectSells, h1, sellLineQty]
    · simp [collectSells, h1, sellLineQty]
    · simp [collectSells, h1, sellLineQty, hq]
  · intro hall
    have hok : collectSells db form (sellItems db shop) = .ok [] := by
      refine collectSells_ok_nil db form _ (fun it hit => ?_)
      have hmem := mem_sortListBy.mp hit
      rw [List.mem_filter] at hmem
      exact hall it hmem.1 (by simpa using hmem.2)
    exact ⟨hok, by simp [sell, hok]⟩

/-- Witness for C9 at a concrete database: a lone malformed line is skipped,
and the sale aborts with "No items selected for sale". -/
theorem C9_witness :
    (collectSells ⟨[], [⟨0, ['s'], ['o'], ['u'], 15, 2⟩], [], [], []⟩ [(0, .malformed)]
        (⟨0, ['s'], ['o'], ['u'], 15, 2⟩ :: []) =
      collectSells ⟨[], [⟨0, ['s'], ['o'], ['u'], 15, 2⟩], [], [], []⟩ [(0, .malformed)] []) ∧
    (collectSells ⟨[], [⟨0, ['s'], ['o'], ['u'], 15, 2⟩], [], [], []⟩ [(0, .malformed)]
        (sellItems ⟨[], [⟨0, ['s'], ['o'], ['u'], 15, 2⟩], [], [], []⟩ ['s']) = .ok [] ∧
      sell ⟨[], [⟨0, ['s'], ['o'], ['u'], 15, 2⟩], [], [], []⟩ ['s'] [(0, .malformed)] ['d'] =
        (some "No items selected for sale", ⟨[], [⟨0, ['s'], ['o'], ['u'], 15, 2⟩], [], [], []⟩)) := by
  refine ⟨(C9_skipped_lines _ ['s'] _ ['d']).1 _ _ (Or.inr (Or.inl rfl)),
    (C9_skipped_lines _ ['s'] _ ['d']).2 (fun r hr _ => ?_)⟩
  have : r = ⟨0, ['s'], ['o'], ['u'], 15, 2⟩ := by simpa using hr
  subst this
  exact Or.inr (Or.inl rfl)

/-! ### C1: insufficient stock aborts the whole sale -/

/-- C1: For every sale submission in which some line requests a positive
quantity strictly greater than the current inventory quantity of its row, the
sell operation aborts the entire sale with a user-visible message: the
returned database is exactly the one before the request (no inventory row
modified or deleted, no sale record appended). -/
theorem C1_insufficient_stock_aborts (db : DB) (shop : Str)
    (form : List (ℕ × RawNum)) (date : Str) (r : InvRow) (q : ℚ)
    (hN : (db.inventory.map InvRow.id).Nodup)
    (hr : r ∈ db.inventory) (hshop : r.shop_name = shop)
    (hparse : sellLineQty (formGet form r.id) = some q)
    (hpos : 0 < q) (hover : r.quantity < q) :
    ∃ msg, sell db shop form date = (some msg, db) := by
  have hrItems : r ∈ sellItems db shop :=
    mem_sortListBy.mpr (List.mem_filter.mpr ⟨hr, by simp [hshop]⟩)
  obtain ⟨msg, hmsg⟩ :=
    collectSells_error_of_over db form hparse hpos (find_id_nodup hN hr) hover
      (sellItems db shop) hrItems
  exact ⟨msg, by simp [sell, hmsg]⟩

/-- Witness for C1 at a concrete database: selling 20 out of a 15-unit stock
aborts and returns the database unchanged. -/
theorem C1_witness :
    ∃ msg, sell ⟨[], [⟨0, ['s'], ['o'], ['u'], 15, 2⟩], [], [], []⟩ ['s'] [(0, .num 20)] ['d'] =
      (some msg, ⟨[], [⟨0, ['s'], ['o'], ['u'], 15, 2⟩], [], [], []⟩) :=
  C1_insufficient_stock_aborts _ ['s'] _ ['d'] ⟨0, ['s'], ['o'], ['u'], 15, 2⟩ 20
    (by simp) (by simp) rfl rfl (by norm_num) (by norm_num)

end Inv1

namespace Inv1

/-! ### Families of databases with many matching rows (for the search claims) -/

/-- A sales/purchases row of shop `s` and item `a`, distinguished by its
quantity. -/
def saleRowN (i : ℕ) : TxnRow := ⟨['s'], ['a'], ['u'], (i : ℚ), 1, 1, ['d']⟩

/-- A database whose sales table holds `n` distinct rows that all match the
query `"a"` for shop `"s"`. -/
def manySalesDB (n : ℕ) : DB := ⟨[], [], [], (List.range n).map saleRowN, []⟩

/-- An inventory row of shop `s` and item `a`, distinguished by its id. -/
def invRowN (i : ℕ) : InvRow := ⟨i, ['s'], ['a'], ['u'], 1, 1⟩

/-- A database whose inventory holds `n` distinct rows that all match the
query `"a"` for shop `"s"`. -/
def manyInvDB (n : ℕ) : DB := ⟨[], (List.range n).map invRowN, [], [], []⟩

theorem saleRowN_injective : Function.Injective saleRowN := by
  intro i j h
  have : ((i : ℚ)) = (j : ℚ) := congrArg TxnRow.quantity h
  exact_mod_cast this

/-! ### C5: search scoping -/

set_option maxRecDepth 4000 in
/-- C5 as stated is false: the sales (and purchases) result sets are
truncated at 500 rows, so with 501 matching sales rows the results do not
contain exactly the matching rows of the caller's shop. -/
theorem C5_counterexample :
    ¬ (∀ (db : DB) (shop q0 : Str) (res : List InvRow × List TxnRow × List TxnRow),
        search db shop q0 = some res →
        ((∀ r : InvRow, r ∈ res.1 ↔ r ∈ db.inventory ∧ r.shop_name = shop ∧
            (likeMatch r.oil_type (pstrip q0) || likeMatch r.unit (pstrip q0)) = true) ∧
         (∀ r : TxnRow, r ∈ res.2.1 ↔ r ∈ db.sales ∧ r.shop_name = shop ∧
            likeMatch r.oil_type (pstrip q0) = true) ∧
         (∀ r : TxnRow, r ∈ res.2.2 ↔ r ∈ db.purchases ∧ r.shop_name = shop ∧
            likeMatch r.oil_type (pstrip q0) = true))) := by
  intro h
  have h2 := (h (manySalesDB 501) ['s'] ['a']
      ([], List.take 500 (sortListBy (fun a b => strLe b.date a.date)
        (List.filter (fun r => r.shop_name == ['s'] && likeMatch r.oil_type (pstrip ['a']))
          ((List.range 501).map saleRowN))), []) rfl).2.1
  have hsub : (List.range 501).map saleRowN ⊆
      List.take 500 (sortListBy (fun a b => strLe b.date a.date)
        (List.filter (fun r => r.shop_name == ['s'] && likeMatch r.oil_type (pstrip ['a']))
          ((List.range 501).map saleRowN))) := by
    intro r hr
    obtain ⟨i, -, rfl⟩ := List.mem_map.mp hr
    exact (h2 (saleRowN i)).mpr ⟨by simpa [manySalesDB] using hr, rfl, rfl⟩
  have hnodup : ((List.range 501).map saleRowN).Nodup :=
    (List.nodup_range 501).map saleRowN_injective
  have hlen := (List.subperm_of_subset hnodup hsub).length_le
  have hle : (List.take 500 (sortListBy (fun a b => strLe b.date a.date)
      (List.filter (fun r => r.shop_name == ['s'] && likeMatch r.oil_type (pstrip ['a']))
        ((List.range 501).map saleRowN)))).length ≤ 500 :=
    List.length_take_le _ _
  simp only [List.length_map, List.length_range] at hlen
  omega

/-- C5 amended: search results contain only rows of the caller's shop whose
matched field contains the (stripped) query case-insensitively — in
particular no other shop's row ever appears; the inventory results contain
exactly the matching rows, while the sales and purchases results are
truncated at 500 rows, and contain exactly the matching rows whenever at
most 500 rows match. -/
theorem C5_search_scoped (db : DB) (shop q0 : Str)
    (res : List InvRow × List TxnRow × List TxnRow)
    (hres : search db shop q0 = some res) :
    (∀ r ∈ res.1, r ∈ db.inventory ∧ r.shop_name = shop ∧
        (likeMatch r.oil_type (pstrip q0) || likeMatch r.unit (pstrip q0)) = true) ∧
    (∀ r ∈ db.inventory, r.shop_name = shop →
        (likeMatch r.oil_type (pstrip q0) || likeMatch r.unit (pstrip q0)) = true →
        r ∈ res.1) ∧
    (∀ r ∈ res.2.1, r ∈ db.sales ∧ r.shop_name = shop ∧
        likeMatch r.oil_type (pstrip q0) = true) ∧
    ((db.sales.filter (fun r => r.shop_name == shop &&
        likeMatch r.oil_type (pstrip q0))).length ≤ 500 →
      ∀ r ∈ db.sales, r.shop_name = shop → likeMatch r.oil_type (pstrip q0) = true →
        r ∈ res.2.1) ∧
    (∀ r ∈ res.2.2, r ∈ db.purchases ∧ r.shop_name = shop ∧
        likeMatch r.oil_type (pstrip q0) = true) ∧
    ((db.purchases.filter (fun r => r.shop_name == shop &&
        likeMatch r.oil_type (pstrip q0))).length ≤ 500 →
      ∀ r ∈ db.purchases, r.shop_name = shop → likeMatch r.oil_type (pstrip q0) = true →
        r ∈ res.2.2) := by
  unfold search at hres
  by_cases hq : pstrip q0 = []
  · simp [hq] at hres
  · simp only [hq, if_false, Option.some.injEq] at hres
    subst hres
    refine ⟨?_, ?_, ?_, ?_, ?_, ?_⟩
    · intro r hr
      obtain ⟨hmem, hb⟩ := List.mem_filter.mp (mem_sortListBy.mp hr)
      rw [Bool.and_eq_true, beq_iff_eq] at hb
      exact ⟨hmem, hb.1, hb.2⟩
    · intro r hr hshop hmatch
      exact mem_sortListBy.mpr (List.mem_filter.mpr ⟨hr, by simp [hshop, hmatch]⟩)
    · intro r hr
      obtain ⟨hmem, hb⟩ := List.mem_filter.mp (mem_sortListBy.mp (List.take_subset _ _ hr))
      rw [Bool.and_eq_true, beq_iff_eq] at hb
      exact ⟨hmem, hb.1, hb.2⟩
    · intro hcap r hr hshop hmatch
      have hlen : (sortListBy (fun a b => strLe b.date a.date)
          (db.sales.filter (fun r => r.shop_name == shop &&
            likeMatch r.oil_type (pstrip q0)))).length ≤ 500 := by
        rw [length_sortListBy]; exact hcap
      rw [List.take_of_length_le hlen]
      exact mem_sortListBy.mpr (List.mem_filter.mpr ⟨hr, by simp [hshop, hmatch]⟩)
    · intro r hr
      obtain ⟨hmem, hb⟩ := List.mem_filter.mp (mem_sortListBy.mp (List.take_subset _ _ hr))
      rw [Bool.and_eq_true, beq_iff_eq] at hb
      exact ⟨hmem, hb.1, hb.2⟩
    · intro hcap r hr hshop hmatch
      have hlen : (sortListBy (fun a b => strLe b.date a.date)
          (db.purchases.filter (fun r => r.shop_name == shop &&
            likeMatch r.oil_type (pstrip q0)))).length ≤ 500 := by
        rw [length_sortListBy]; exact hcap
      rw [List.take_of_length_le hlen]
      exact mem_sortListBy.mpr (List.mem_filter.mpr ⟨hr, by simp [hshop, hmatch]⟩)

/-- Witness for the amended C5 at a concrete database holding a matching row
of the caller's shop and a matching row of another shop. -/
theorem C5_witness :
    ∃ res, search ⟨[], [⟨0, ['s'], ['a'], ['u'], 1, 1⟩],
        [⟨['t'], ['a'], ['u'], 1, 1, 1, ['d']⟩],
        [⟨['s'], ['a'], ['u'], 2, 1, 2, ['d']⟩, ⟨['t'], ['a'], ['u'], 3, 1, 3, ['d']⟩], []⟩
        ['s'] ['a'] = some res ∧
      (∀ r ∈ res.1, r ∈ [⟨0, ['s'], ['a'], ['u'], 1, 1⟩] ∧ r.shop_name = ['s'] ∧
        (likeMatch r.oil_type (pstrip ['a']) || likeMatch r.unit (pstrip ['a'])) = true) ∧
      (∀ r ∈ res.2.1, r ∈ [(⟨['s'], ['a'], ['u'], 2, 1, 2, ['d']⟩ : TxnRow),
          ⟨['t'], ['a'], ['u'], 3, 1, 3, ['d']⟩] ∧ r.shop_name = ['s'] ∧
        likeMatch r.oil_type (pstrip ['a']) = true) := by
  refine ⟨_, rfl, ?_, ?_⟩
  · exact fun r hr => (C5_search_scoped _ ['s'] ['a'] _ rfl).1 r hr
  · exact fun r hr => (C5_search_scoped _ ['s'] ['a'] _ rfl).2.2.1 r hr

/-! ### C6: result caps -/

/-- C6 as stated is false: the inventory result set of `search` is not
capped by any fixed bound (the sales and purchases sets are capped at 500,
but the inventory query has no LIMIT clause). -/
theorem C6_counterexample :
    ¬ (∃ Ni Ns Np : ℕ,
        ∀ (db : DB) (shop q0 : Str) (res : List InvRow × List TxnRow × List TxnRow),
          search db shop q0 = some res →
          res.1.length ≤ Ni ∧ res.2.1.length ≤ Ns ∧ res.2.2.length ≤ Np) := by
  rintro ⟨Ni, Ns, Np, h⟩
  have h1 := (h (manyInvDB (Ni + 1)) ['s'] ['a']
      (sortListBy (fun a b => strLe a.oil_type b.oil_type)
        (((List.range (Ni + 1)).map invRowN).filter
          (fun r => r.shop_name == ['s'] &&
            (likeMatch r.oil_type (pstrip ['a']) || likeMatch r.unit (pstrip ['a'])))),
        [], []) rfl).1
  have hfil : ((List.range (Ni + 1)).map invRowN).filter
      (fun r => r.shop_name == ['s'] &&
        (likeMatch r.oil_type (pstrip ['a']) || likeMatch r.unit (pstrip ['a']))) =
      (List.range (Ni + 1)).map invRowN := by
    refine List.filter_eq_self.mpr (fun a ha => ?_)
    obtain ⟨i, -, rfl⟩ := List.mem_map.mp ha
    rfl
  have h1' : (sortListBy (fun a b => strLe a.oil_type b.oil_type)
      (((List.range (Ni + 1)).map invRowN).filter
        (fun r => r.shop_name == ['s'] &&
          (likeMatch r.oil_type (pstrip ['a']) || likeMatch r.unit (pstrip ['a']))))).length ≤
      Ni := h1
  rw [length_sortListBy, hfil, List.length_map, List.length_range] at h1'
  omega

/-- C6 amended: the sales and purchases result sets of `search` are each
capped at 500 rows; the inventory result set is unbounded — for every bound
there is a database whose inventory results exceed it. -/
theorem C6_caps (db : DB) (shop q0 : Str)
    (res : List InvRow × List TxnRow × List TxnRow)
    (hres : search db shop q0 = some res) :
    (res.2.1.length ≤ 500 ∧ res.2.2.length ≤ 500) ∧
    (∀ N : ℕ, ∃ (db2 : DB) (res2 : List InvRow × List TxnRow × List TxnRow),
      search db2 ['s'] ['a'] = some res2 ∧ N < res2.1.length) := by
  constructor
  · unfold search at hres
    by_cases hq : pstrip q0 = []
    · simp [hq] at hres
    · simp only [hq, if_false, Option.some.injEq] at hres
      subst hres
      exact ⟨List.length_take_le _ _, List.length_take_le _ _⟩
  · intro N
    refine ⟨manyInvDB (N + 1),
      (sortListBy (fun a b => strLe a.oil_type b.oil_type)
        (((List.range (N + 1)).map invRowN).filter
          (fun r => r.shop_name == ['s'] &&
            (likeMatch r.oil_type (pstrip ['a']) || likeMatch r.unit (pstrip ['a'])))),
        [], []) , rfl, ?_⟩
    have hfil : ((List.range (N + 1)).map invRowN).filter
        (fun r => r.shop_name == ['s'] &&
          (likeMatch r.oil_type (pstrip ['a']) || likeMatch r.unit (pstrip ['a']))) =
        (List.range (N + 1)).map invRowN := by
      refine List.filter_eq_self.mpr (fun a ha => ?_)
      obtain ⟨i, -, rfl⟩ := List.mem_map.mp ha
      rfl
    show N < (sortListBy (fun a b => strLe a.oil_type b.oil_type)
      (((List.range (N + 1)).map invRowN).filter
        (fun r => r.shop_name == ['s'] &&
          (likeMatch r.oil_type (pstrip ['a']) || likeMatch r.unit (pstrip ['a']))))).length
    rw [length_sortListBy, hfil, List.length_map, List.length_range]
    omega

/-- Witness for the amended C6 at a concrete database. -/
theorem C6_witness :
    ((search ⟨[], [⟨0, ['s'], ['a'], ['u'], 1, 1⟩], [], [], []⟩ ['s'] ['a']).getD
        ([], [], [])).2.1.length ≤ 500 ∧
    (∀ N : ℕ, ∃ (db2 : DB) (res2 : List InvRow × List TxnRow × List TxnRow),
      search db2 ['s'] ['a'] = some res2 ∧ N < res2.1.length) :=
  ⟨(C6_caps ⟨[], [⟨0, ['s'], ['a'], ['u'], 1, 1⟩], [], [], []⟩ ['s'] ['a'] _ rfl).1.1,
   (C6_caps ⟨[], [⟨0, ['s'], ['a'], ['u'], 1, 1⟩], [], [], []⟩ ['s'] ['a'] _ rfl).2⟩

end Inv1

namespace Inv1

/-! ### The net effect of a successful sale (machinery for C2) -/

/-- The net effect of the committed sell lines on one inventory row: a row
targeted by a line is deleted when its quantity would drop to ≤ 0 and
decremented otherwise; other rows are untouched. -/
def sellStep (sells : List SellLine) (r : InvRow) : Option InvRow :=
  match sells.find? (fun s => s.inventory_id == r.id) with
  | none => some r
  | some s =>
    if r.quantity - s.qty ≤ 0 then none
    else some { r with quantity := r.quantity - s.qty }

/-- The list of lines the collection loop gathers when no line fails
(the failure branches are cut off; `collectSells_eq_collectOk` shows this
agrees with `collectSells` when every line passes its checks). -/
def collectOk (db : DB) (form : List (ℕ × RawNum)) : List InvRow → List SellLine
  | [] => []
  | it :: rest =>
    match sellLineQty (formGet form it.id) with
    | none => collectOk db form rest
    | some qty =>
      if qty ≤ 0 then collectOk db form rest
      else
        match db.inventory.find? (fun r => r.id == it.id) with
        | none => collectOk db form rest
        | some row =>
          ⟨row.id, row.oil_type, row.unit, qty, row.unit_price, qty * row.unit_price⟩ ::
            collectOk db form rest

theorem mem_sellItems {db : DB} {shop : Str} {r : InvRow} :
    r ∈ sellItems db shop ↔ r ∈ db.inventory ∧ r.shop_name = shop := by
  simp [sellItems, mem_sortListBy, List.mem_filter]

/-- When every usable line finds its row with sufficient stock, the
collection loop succeeds and returns exactly the `collectOk` lines. -/
theorem collectSells_eq_collectOk (db : DB) (form : List (ℕ × RawNum)) :
    ∀ l : List InvRow,
      (∀ it ∈ l, ∀ q, sellLineQty (formGet form it.id) = some q → 0 < q →
        ∃ row, db.inventory.find? (fun r => r.id == it.id) = some row ∧
          ¬ row.quantity < q) →
      collectSells db form l = .ok (collectOk db form l)
  | [], _ => rfl
  | it :: rest, h => by
    have hrest := collectSells_eq_collectOk db form rest (fun x hx => h x (by simp [hx]))
    cases hit : sellLineQty (formGet form it.id) with
    | none => simp [collectSells, collectOk, hit, hrest]
    | some qty =>
      by_cases hle : qty ≤ 0
      · simp [collectSells, collectOk, hit, hle, hrest]
      · obtain ⟨row, hfind, hno⟩ := h it (by simp) qty hit (not_le.mp hle)
        simp [collectSells, collectOk, hit, hle, hfind, hno, hrest, Except.map]

/-- Shape of every collected line: it comes from a listed item, snapshots
the freshly re-read row's price, and carries a positive quantity. -/
theorem collectOk_mem (db : DB) (form : List (ℕ × RawNum)) :
    ∀ l : List InvRow, ∀ s ∈ collectOk db form l,
      ∃ (it row : InvRow) (q : ℚ), it ∈ l ∧
        db.inventory.find? (fun r => r.id == it.id) = some row ∧
        sellLineQty (formGet form it.id) = some q ∧ 0 < q ∧
        s = ⟨row.id, row.oil_type, row.unit, q, row.unit_price, q * row.unit_price⟩
  | [], s, hs => by cases hs
  | it :: rest, s, hs => by
    have ihall := collectOk_mem db form rest
    cases hit : sellLineQty (formGet form it.id) with
    | none =>
      simp only [collectOk, hit] at hs
      obtain ⟨a, row, q, hal, h2, h3, h4, h5⟩ := ihall s hs
      exact ⟨a, row, q, by simp [hal], h2, h3, h4, h5⟩
    | some qty =>
      by_cases hle : qty ≤ 0
      · simp only [collectOk, hit, if_pos hle] at hs
        obtain ⟨a, row, q, hal, h2, h3, h4, h5⟩ := ihall s hs
        exact ⟨a, row, q, by simp [hal], h2, h3, h4, h5⟩
      · simp only [collectOk, hit, if_neg hle] at hs
        cases hfind : db.inventory.find? (fun r => r.id == it.id) with
        | none =>
          simp only [hfind] at hs
          obtain ⟨a, row, q, hal, h2, h3, h4, h5⟩ := ihall s hs
          exact ⟨a, row, q, by simp [hal], h2, h3, h4, h5⟩
        | some row =>
          simp only [hfind] at hs
          rcases List.mem_cons.mp hs with heq | htail
          · exact ⟨it, row, qty, by simp, hfind, hit, not_le.mp hle, heq⟩
          · obtain ⟨a, row2, q, hal, h2, h3, h4, h5⟩ := ihall s htail
            exact ⟨a, row2, q, by simp [hal], h2, h3, h4, h5⟩

/-- The collected line ids form a sublist of the listed item ids. -/
theorem collectOk_ids_sublist (db : DB) (form : List (ℕ × RawNum)) :
    ∀ l : List InvRow,
      ((collectOk db form l).map SellLine.inventory_id).Sublist (l.map InvRow.id)
  | [] => by simp [collectOk]
  | it :: rest => by
    have ih := collectOk_ids_sublist db form rest
    cases hit : sellLineQty (formGet form it.id) with
    | none =>
      simp only [collectOk, hit, List.map_cons]
      exact ih.cons _
    | some qty =>
      by_cases hle : qty ≤ 0
      · simp only [collectOk, hit, if_pos hle, List.map_cons]
        exact ih.cons _
      · cases hfind : db.inventory.find? (fun r => r.id == it.id) with
        | none =>
          simp only [collectOk, hit, if_neg hle, hfind, List.map_cons]
          exact ih.cons _
        | some row =>
          have hid : row.id = it.id := by simpa using List.find?_some hfind
          simp only [collectOk, hit, if_neg hle, hfind, List.map_cons, hid]
          exact ih.cons₂ _

/-- Deleting a sold-out row by id coincides with the per-row `sellStep` of
that single line, when every row carrying the id is the re-read row `ex`. -/
theorem filter_del_eq_filterMap (s : SellLine) (ex : InvRow)
    (hle : ex.quantity - s.qty ≤ 0) :
    ∀ inv : List InvRow, (∀ r ∈ inv, r.id = s.inventory_id → r = ex) →
      inv.filter (fun r => r.id != s.inventory_id) = inv.filterMap (sellStep [s])
  | [], _ => rfl
  | a :: t, h => by
    have ht := filter_del_eq_filterMap s ex hle t (fun r hr => h r (by simp [hr]))
    by_cases hid : a.id = s.inventory_id
    · have ha : a = ex := h a (by simp) hid
      have hb : (s.inventory_id == a.id) = true := by simp [hid]
      have hstep : sellStep [s] a = none := by
        rw [sellStep]
        simp only [List.find?, hb]
        rw [if_pos (by rw [ha]; exact hle)]
      simp [List.filter_cons, List.filterMap_cons, hid, hstep, ht]
    · have hb : (s.inventory_id == a.id) = false := by
        rw [beq_eq_false_iff_ne]; exact fun hh => hid hh.symm
      have hstep : sellStep [s] a = some a := by
        rw [sellStep]
        simp only [List.find?, hb]
      simp [List.filter_cons, List.filterMap_cons, hid, hstep, ht]

/-- Decrementing a surviving row by id coincides with the per-row `sellStep`
of that single line, when every row carrying the id is the re-read row
`ex`. -/
theorem map_upd_eq_filterMap (s : SellLine) (ex : InvRow)
    (hle : ¬ ex.quantity - s.qty ≤ 0) :
    ∀ inv : List InvRow, (∀ r ∈ inv, r.id = s.inventory_id → r = ex) →
      inv.map (fun r =>
        if r.id = s.inventory_id then { r with quantity := ex.quantity - s.qty } else r) =
        inv.filterMap (sellStep [s])
  | [], _ => rfl
  | a :: t, h => by
    have ht := map_upd_eq_filterMap s ex hle t (fun r hr => h r (by simp [hr]))
    by_cases hid : a.id = s.inventory_id
    · have ha : a = ex := h a (by simp) hid
      have hb : (s.inventory_id == a.id) = true := by simp [hid]
      have hstep : sellStep [s] a = some { a with quantity := ex.quantity - s.qty } := by
        rw [sellStep]
        simp only [List.find?, hb]
        rw [if_neg (by rw [ha]; exact hle), ha]
      simp [List.map_cons, List.filterMap_cons, hid, hstep, ht]
    · have hb : (s.inventory_id == a.id) = false := by
        rw [beq_eq_false_iff_ne]; exact fun hh => hid hh.symm
      have hstep : sellStep [s] a = some a := by
        rw [sellStep]
        simp only [List.find?, hb]
      simp [List.map_cons, List.filterMap_cons, hid, hstep, ht]

/-- One iteration of the write loop, characterised through `sellStep`. -/
theorem applyOne_eq (shop date : Str) (db : DB) (s : SellLine) (ex : InvRow)
    (hN : (db.inventory.map InvRow.id).Nodup)
    (hfind : db.inventory.find? (fun r => r.id == s.inventory_id) = some ex) :
    applyOne shop date db s = some { db with
      inventory := db.inventory.filterMap (sellStep [s]),
      sales := db.sales ++ [mkSaleRow shop date s] } := by
  have huniq : ∀ r ∈ db.inventory, r.id = s.inventory_id → r = ex := by
    intro r hr hrid
    have hexmem := List.mem_of_find?_eq_some hfind
    have hexid : ex.id = s.inventory_id := by simpa using List.find?_some hfind
    exact List.inj_on_of_nodup_map hN hr hexmem (by rw [hrid, hexid])
  by_cases hle : ex.quantity - s.qty ≤ 0
  · simp only [applyOne, hfind, if_pos hle]
    rw [filter_del_eq_filterMap s ex hle db.inventory huniq]
  · simp only [applyOne, hfind, if_neg hle]
    rw [map_upd_eq_filterMap s ex hle db.inventory huniq]

/-- A row targeted by no line passes through `sellStep` unchanged. -/
theorem sellStep_not_mem {sells : List SellLine} {r : InvRow}
    (h : ∀ x ∈ sells, x.inventory_id ≠ r.id) : sellStep sells r = some r := by
  rw [sellStep, List.find?_eq_none.mpr (fun x hx => by simp [h x hx])]

/-- Splitting the first line off the net effect of a list of lines with
pairwise-distinct target rows. -/
theorem sellStep_cons (s : SellLine) (rest : List SellLine)
    (hnotin : s.inventory_id ∉ rest.map SellLine.inventory_id) (r : InvRow) :
    (sellStep [s] r).bind (sellStep rest) = sellStep (s :: rest) r := by
  by_cases hid : s.inventory_id = r.id
  · have hb : (s.inventory_id == r.id) = true := by simp [hid]
    rw [sellStep, sellStep]
    simp only [List.find?, hb]
    by_cases hle : r.quantity - s.qty ≤ 0
    · rw [if_pos hle]
      rfl
    · rw [if_neg hle, Option.some_bind]
      exact sellStep_not_mem (fun x hx hxe =>
        hnotin ((hid.trans hxe.symm) ▸ List.mem_map_of_mem SellLine.inventory_id hx))
  · have hb : (s.inventory_id == r.id) = false := by rw [beq_eq_false_iff_ne]; exact hid
    rw [sellStep, sellStep]
    simp only [List.find?, hb]
    rw [Option.some_bind, sellStep]

/-- `sellStep` never changes a surviving row's id. -/
theorem sellStep_id_eq {sells : List SellLine} {r r' : InvRow}
    (h : sellStep sells r = some r') : r'.id = r.id := by
  rw [sellStep] at h
  cases hf : sells.find? (fun s => s.inventory_id == r.id) with
  | none => simp only [hf] at h; cases h; rfl
  | some s =>
    simp only [hf] at h
    by_cases hle : r.quantity - s.qty ≤ 0
    · rw [if_pos hle] at h; cases h
    · rw [if_neg hle] at h; cases h; rfl

/-- Applying sell lines only removes or rewrites rows in place, so the ids
stay a sublist of the original ids. -/
theorem filterMap_sellStep_ids_sublist (sells : List SellLine) :
    ∀ inv : List InvRow,
      ((inv.filterMap (sellStep sells)).map InvRow.id).Sublist (inv.map InvRow.id)
  | [] => by simp
  | a :: t => by
    have ih := filterMap_sellStep_ids_sublist sells t
    cases h : sellStep sells a with
    | none =>
      simp only [List.filterMap_cons, h, List.map_cons]
      exact ih.cons _
    | some b =>
      have hid : b.id = a.id := sellStep_id_eq h
      simp only [List.filterMap_cons, h, List.map_cons, hid]
      exact ih.cons₂ _

/-- The write loop of `sell`, characterised as one `filterMap` over the
inventory plus one appended sales row per line. -/
theorem applySells_eq (shop date : Str) (sells : List SellLine) : ∀ db : DB,
    (db.inventory.map InvRow.id).Nodup →
    (sells.map SellLine.inventory_id).Nodup →
    (∀ s ∈ sells, ∃ ex ∈ db.inventory, ex.id = s.inventory_id) →
    applySells shop date db sells = some { db with
      inventory := db.inventory.filterMap (sellStep sells),
      sales := db.sales ++ sells.map (mkSaleRow shop date) } := by
  induction sells with
  | nil =>
    intro db _ _ _
    have h1 : db.inventory.filterMap (sellStep []) = db.inventory := by
      have h2 : sellStep ([] : List SellLine) = some := funext (fun r => rfl)
      rw [h2, List.filterMap_some]
    simp [applySells, h1]
  | cons s rest ih =>
    intro db hN hsN hex
    obtain ⟨ex, hexmem, hexid⟩ := hex s (by simp)
    have hfind : db.inventory.find? (fun r => r.id == s.inventory_id) = some ex := by
      have h0 := find_id_nodup hN hexmem
      rwa [hexid] at h0
    have hnotin : s.inventory_id ∉ rest.map SellLine.inventory_id :=
      (List.nodup_cons.mp hsN).1
    rw [applySells, applyOne_eq shop date db s ex hN hfind, Option.some_bind]
    set db1 : DB :=
      { db with
          inventory := db.inventory.filterMap (sellStep [s]),
          sales := db.sales ++ [mkSaleRow shop date s] } with hdb1
    have hN1 : (db1.inventory.map InvRow.id).Nodup :=
      List.Nodup.sublist (filterMap_sellStep_ids_sublist [s] db.inventory) hN
    have hex1 : ∀ s' ∈ rest, ∃ ex' ∈ db1.inventory, ex'.id = s'.inventory_id := by
      intro s' hs'
      obtain ⟨ex', hm', hid'⟩ := hex s' (by simp [hs'])
      have hne : (s.inventory_id == ex'.id) = false := by
        rw [beq_eq_false_iff_ne, hid']
        intro hcontra
        exact hnotin (hcontra ▸ List.mem_map_of_mem SellLine.inventory_id hs')
      have hstep : sellStep [s] ex' = some ex' := by
        rw [sellStep]
        simp only [List.find?, hne]
      exact ⟨ex', List.mem_filterMap.mpr ⟨ex', hm', hstep⟩, hid'⟩
    rw [ih db1 hN1 (List.nodup_cons.mp hsN).2 hex1]
    have hinv : (db.inventory.filterMap (sellStep [s])).filterMap (sellStep rest) =
        db.inventory.filterMap (sellStep (s :: rest)) := by
      rw [List.filterMap_filterMap]
      exact List.filterMap_congr (fun r _ => sellStep_cons s rest hnotin r)
    have hsal : (db.sales ++ [mkSaleRow shop date s]) ++ rest.map (mkSaleRow shop date) =
        db.sales ++ (s :: rest).map (mkSaleRow shop date) := by
      simp
    simp only [hinv, hsal]

end Inv1

namespace Inv1

/-- A sale whose usable line is present cannot collect an empty line list. -/
theorem collectOk_ne_nil (db : DB) (form : List (ℕ × RawNum)) {r : InvRow} {q : ℚ}
    (hparse : sellLineQty (formGet form r.id) = some q) (hpos : 0 < q)
    (hfind : (db.inventory.find? (fun x => x.id == r.id)).isSome) :
    ∀ l : List InvRow, r ∈ l → collectOk db form l ≠ [] := by
  intro l
  induction l with
  | nil => intro h; cases h
  | cons it rest ih =>
    intro hmem
    rcases List.mem_cons.mp hmem with heq | htail
    · subst heq
      obtain ⟨row, hrow⟩ := Option.isSome_iff_exists.mp hfind
      simp [collectOk, hparse, not_le.mpr hpos, hrow]
    · have hne := ih htail
      cases hit : sellLineQty (formGet form it.id) with
      | none => simpa [collectOk, hit] using hne
      | some qty =>
        by_cases hle : qty ≤ 0
        · simpa [collectOk, hit, hle] using hne
        · cases hfind2 : db.inventory.find? (fun x => x.id == it.id) with
          | none => simpa [collectOk, hit, hle, hfind2] using hne
          | some row => simp [collectOk, hit, hle, hfind2]

/-- C2: For every sale submission in which every submitted line's quantity is
positive and at most the available quantity of its inventory row (and at
least one line is submitted), the sell operation succeeds and, for each
collected line: the line's inventory row is decremented by the requested
quantity via `sellStep` — which deletes the row when the resulting quantity
is ≤ 0, in particular when selling the exact remaining quantity — and exactly
one sale record per line is appended, whose price_per_unit is the inventory
row's unit_price at processing time and whose total equals
quantity × price_per_unit.  All other tables are untouched. -/
theorem C2_successful_sale (db : DB) (shop : Str) (form : List (ℕ × RawNum))
    (date : Str)
    (hN : (db.inventory.map InvRow.id).Nodup)
    (hOK : ∀ r ∈ sellItems db shop, ∀ q, sellLineQty (formGet form r.id) = some q →
      0 < q ∧ q ≤ r.quantity)
    (hNE : ∃ r ∈ sellItems db shop, ∃ q, sellLineQty (formGet form r.id) = some q) :
    ∃ db',
      sell db shop form date = (none, db') ∧
      db'.sales = db.sales ++
        (collectOk db form (sellItems db shop)).map (mkSaleRow shop date) ∧
      db'.inventory =
        db.inventory.filterMap (sellStep (collectOk db form (sellItems db shop))) ∧
      db'.purchases = db.purchases ∧ db'.users = db.users ∧
      db'.purchase_orders = db.purchase_orders ∧
      (∀ s ∈ collectOk db form (sellItems db shop),
        ∃ r ∈ db.inventory, r.id = s.inventory_id ∧ 0 < s.qty ∧ s.qty ≤ r.quantity ∧
          s.price_per_unit = r.unit_price ∧ s.total = s.qty * s.price_per_unit ∧
          s.oil_type = r.oil_type ∧ s.unit = r.unit) := by
  have hcoll : collectSells db form (sellItems db shop) =
      .ok (collectOk db form (sellItems db shop)) := by
    refine collectSells_eq_collectOk db form _ (fun it hit q hq hpos => ?_)
    exact ⟨it, find_id_nodup hN (mem_sellItems.mp hit).1,
      not_lt.mpr ((hOK it hit q hq).2)⟩
  obtain ⟨r0, hr0, q0, hq0⟩ := hNE
  have hpos0 : 0 < q0 := (hOK r0 hr0 q0 hq0).1
  have hne : collectOk db form (sellItems db shop) ≠ [] :=
    collectOk_ne_nil db form hq0 hpos0
      (by rw [find_id_nodup hN (mem_sellItems.mp hr0).1]; rfl) _ hr0
  have hidsItems : ((sellItems db shop).map InvRow.id).Nodup := by
    have hperm := (sortListBy_perm (fun a b => strLe a.oil_type b.oil_type)
      (db.inventory.filter (fun r => r.shop_name == shop))).map InvRow.id
    have hsubl : ((db.inventory.filter (fun r => r.shop_name == shop)).map InvRow.id).Sublist
        (db.inventory.map InvRow.id) := (List.filter_sublist _).map _
    simp only [sellItems]
    exact (hperm.nodup_iff).mpr (List.Nodup.sublist hsubl hN)
  have hidsSells :
      ((collectOk db form (sellItems db shop)).map SellLine.inventory_id).Nodup :=
    List.Nodup.sublist (collectOk_ids_sublist db form _) hidsItems
  have hex : ∀ s ∈ collectOk db form (sellItems db shop),
      ∃ ex ∈ db.inventory, ex.id = s.inventory_id := by
    intro s hs
    obtain ⟨it, row, q, hitl, hfind, hparse, hqpos, hseq⟩ := collectOk_mem db form _ s hs
    exact ⟨row, List.mem_of_find?_eq_some hfind, by rw [hseq]⟩
  have happ := applySells_eq shop date (collectOk db form (sellItems db shop)) db
    hN hidsSells hex
  refine ⟨{ db with
      inventory := db.inventory.filterMap (sellStep (collectOk db form (sellItems db shop))),
      sales := db.sales ++ (collectOk db form (sellItems db shop)).map (mkSaleRow shop date) },
    ?_, rfl, rfl, rfl, rfl, rfl, ?_⟩
  · have hIsE : (collectOk db form (sellItems db shop)).isEmpty = false :=
      List.isEmpty_eq_false.mpr hne
    simp only [sell, hcoll, hIsE, Bool.false_eq_true, if_false, happ]
  · intro s hs
    obtain ⟨it, row, q, hitl, hfind, hparse, hqpos, hseq⟩ := collectOk_mem db form _ s hs
    have hrowit : row = it := by
      have h1 := find_id_nodup hN (mem_sellItems.mp hitl).1
      rw [hfind] at h1
      exact Option.some.inj h1
    have hqle : q ≤ row.quantity := by
      rw [hrowit]
      exact (hOK it hitl q hparse).2
    refine ⟨row, List.mem_of_find?_eq_some hfind, ?_, ?_, ?_, ?_, ?_, ?_, ?_⟩
    · rw [hseq]
    · rw [hseq]; exact hqpos
    · rw [hseq]; exact hqle
    · rw [hseq]
    · rw [hseq]
    · rw [hseq]
    · rw [hseq]

end Inv1

namespace Inv1

/-- Witness for C2 at a concrete database: selling 12 of a 15-unit row
succeeds, with the sales and inventory tables taking the characterised
values. -/
theorem C2_witness :
    ∃ db',
      sell ⟨[], [⟨0, ['s'], ['o'], ['u'], 15, 2⟩], [], [], []⟩ ['s']
        [(0, RawNum.num 12)] ['d'] = (none, db') ∧
      db'.sales = (⟨[], [⟨0, ['s'], ['o'], ['u'], 15, 2⟩], [], [], []⟩ : DB).sales ++
        (collectOk ⟨[], [⟨0, ['s'], ['o'], ['u'], 15, 2⟩], [], [], []⟩ [(0, RawNum.num 12)]
          (sellItems ⟨[], [⟨0, ['s'], ['o'], ['u'], 15, 2⟩], [], [], []⟩ ['s'])).map
          (mkSaleRow ['s'] ['d']) ∧
      db'.inventory =
        (⟨[], [⟨0, ['s'], ['o'], ['u'], 15, 2⟩], [], [], []⟩ : DB).inventory.filterMap
          (sellStep (collectOk ⟨[], [⟨0, ['s'], ['o'], ['u'], 15, 2⟩], [], [], []⟩
            [(0, RawNum.num 12)]
            (sellItems ⟨[], [⟨0, ['s'], ['o'], ['u'], 15, 2⟩], [], [], []⟩ ['s']))) := by
  obtain ⟨db', h1, h2, h3, -⟩ :=
    C2_successful_sale ⟨[], [⟨0, ['s'], ['o'], ['u'], 15, 2⟩], [], [], []⟩ ['s']
      [(0, RawNum.num 12)] ['d']
      (by simp)
      (by
        intro r hr q hq
        rw [show sellItems ⟨[], [⟨0, ['s'], ['o'], ['u'], 15, 2⟩], [], [], []⟩ ['s'] =
            [⟨0, ['s'], ['o'], ['u'], 15, 2⟩] from rfl, List.mem_singleton] at hr
        subst hr
        have h12 : some (12 : ℚ) = some q := hq
        cases h12
        exact ⟨by norm_num, by norm_num⟩)
      (⟨⟨0, ['s'], ['o'], ['u'], 15, 2⟩,
        by
          rw [show sellItems ⟨[], [⟨0, ['s'], ['o'], ['u'], 15, 2⟩], [], [], []⟩ ['s'] =
              [⟨0, ['s'], ['o'], ['u'], 15, 2⟩] from rfl]
          exact List.mem_singleton.mpr rfl,
        12, rfl⟩)
  exact ⟨db', h1, h2, h3⟩

end Inv1
